import Mathlib

/-!
Verification development for the devops environment-lifecycle controller
(`devops/controller.py`): data model, a shallow embedding of the
`Controller` methods (`build_environment`, `destroy_environment`,
`save_environment`, `_build_node`, `_cache_file`, `randstr`) over an
explicit oracle of external calls (backend driver, filesystem, address
pool, downloads), and theorems settling the specified properties.

Python mutation is rendered as explicit state passing: every operation
returns the (possibly partially) mutated data together with a trace of
external effects and an optional error (a raised exception).  External
collaborators (the Driver, `os`, `tempfile`, `IpNetworksPool`,
`urllib`) are oracles that may return a value or raise.
-/

namespace Devops

/-- An exception message (`DevopsError`, `OSError`, driver errors, ...). -/
abbrev Err := String

/-- `devops.model.Disk` as read/written by the controller:
`path` (null until materialized) and `format`. -/
structure Disk where
  path : Option String
  format : String
deriving DecidableEq, Repr

/-- A node's optional cdrom, carrying the image path `isopath`. -/
structure Cdrom where
  isopath : String
deriving DecidableEq, Repr

/-- `devops.model.Node` as read/written by the controller.  The transient
backend reference `driver` is modelled by its presence (`Bool`). -/
structure Node where
  name : String
  disks : List Disk
  cdrom : Option Cdrom
  driver : Bool
deriving DecidableEq, Repr

/-- `devops.model.Network`; `ip_addresses` is the allocated block
(abstracted to a `Nat` identifier), `driver` the transient reference. -/
structure Network where
  name : String
  ip_addresses : Option Nat
  driver : Bool
deriving DecidableEq, Repr

/-- An environment: `id` is absent (`none`) until assigned, `work_dir`
is a path string (empty until assigned), `built` the completion flag. -/
structure Environment where
  id : Option String
  name : String
  work_dir : String
  built : Bool
  networks : List Network
  nodes : List Node
  driver : Bool
deriving DecidableEq, Repr

/-- Trace of external effects performed by a controller operation. -/
inductive Event where
  | mkdirE : String → Nat → Event
  | poolGetE : Event
  | createNetworkE : Network → Event
  | startNetworkE : Network → Event
  | mkstempE : String → String → Event
  | chmodE : String → Nat → Event
  | createDiskE : Disk → Event
  | createNodeE : Node → Event
  | stopNodeE : Node → Event
  | deleteNodeE : Node → Event
  | stopNetworkE : Network → Event
  | deleteNetworkE : Network → Event
  | poolPutE : Option Nat → Event
  | rmtreeE : String → Event
deriving DecidableEq, Repr

/-- Oracle for every external call the controller makes.  Fallible calls
return `Except Err`; calls drawing randomness are indexed by a call
counter so successive calls may differ. -/
structure World where
  home_dir : String
  /-- `random.choice(string.ascii_letters)`, per character drawn. -/
  choice : Nat → Char
  /-- `os.mkdir(path, mode)`. -/
  mkdir : String → Nat → Except Err Unit
  /-- `self._cache_file(url)` as seen from `build_environment`. -/
  cacheFile : String → Except Err String
  /-- `self.networks_pool.get()`, indexed by call number. -/
  poolGet : Nat → Except Err Nat
  /-- `self.driver.create_network(network)`. -/
  createNetwork : Network → Except Err Unit
  /-- `network.start()`. -/
  startNetwork : Network → Except Err Unit
  /-- `tempfile.mkstemp(prefix, suffix)` (arguments: prefix, suffix,
  call number); returns the created file's full path. -/
  mkstemp : String → String → Nat → Except Err String
  /-- `os.chmod(path, mode)`. -/
  chmod : String → Nat → Except Err Unit
  /-- `self.driver.create_disk(disk)`. -/
  createDisk : Disk → Except Err Unit
  /-- `self.driver.create_node(node)`. -/
  createNode : Node → Except Err Unit
  /-- `node.stop()`. -/
  stopNode : Node → Except Err Unit
  /-- `self.driver.delete_node(node)`. -/
  deleteNode : Node → Except Err Unit
  /-- `network.stop()`. -/
  stopNetwork : Network → Except Err Unit
  /-- `self.driver.delete_network(network)`. -/
  deleteNetwork : Network → Except Err Unit
  /-- `self.networks_pool.put(network.ip_addresses)`. -/
  poolPut : Option Nat → Except Err Unit
  /-- `shutil.rmtree(path)`. -/
  rmtree : String → Except Err Unit

/-- `string.ascii_letters`. -/
def string_ascii_letters : List Char :=
  "abcdefghijklmnopqrstuvwxyzABCDEFGHIJKLMNOPQRSTUVWXYZ".toList

/-- `randstr(length)`: join of `length` draws of
`random.choice(string.ascii_letters)`. -/
def randstr (choice : Nat → Char) (length : Nat) : String :=
  String.mk ((List.range length).map choice)

/-- `stat.S_IRWXU | stat.S_IRWXG | stat.S_IRWXO`: mode of the
environment working directory. -/
def work_dir_mode : Nat := 0o700 ||| 0o070 ||| 0o007

/-- `stat.S_IRUSR | stat.S_IWUSR | stat.S_IRGRP | stat.S_IWGRP |
stat.S_IROTH`: mode given to materialized disk files. -/
def disk_file_mode : Nat := 0o400 ||| 0o200 ||| 0o040 ||| 0o020 ||| 0o004

/-- Does `pat` occur as a contiguous substring of the character list? -/
def hasSubstr (pat : List Char) : List Char → Bool
  | [] => pat.isEmpty
  | c :: rest => pat.isPrefixOf (c :: rest) || hasSubstr pat rest

/-- `path.find('://') != -1`: the URL-scheme test of
`build_environment`. -/
def containsScheme (s : String) : Bool :=
  hasSubstr "://".toList s.toList

/-- The cdrom-caching loop of `build_environment`: for each node with a
cdrom whose `isopath` holds a URL scheme, rewrite `isopath` to
`self._cache_file(isopath)`; a raised error propagates. -/
def cacheCdroms (w : World) : List Node → List Node × Option Err
  | [] => ([], none)
  | node :: rest =>
    match node.cdrom with
    | none =>
      let (rest', err) := cacheCdroms w rest
      (node :: rest', err)
    | some c =>
      if containsScheme c.isopath then
        match w.cacheFile c.isopath with
        | .error e => (node :: rest, some e)
        | .ok p =>
          let node' := { node with cdrom := some { isopath := p } }
          let (rest', err) := cacheCdroms w rest
          (node' :: rest', err)
      else
        let (rest', err) := cacheCdroms w rest
        (node :: rest', err)

/-- The network loop of `build_environment`: for each network in order,
`ip_addresses = pool.get()`, `driver.create_network`, attach the driver
reference, `network.start()`; the first raised error propagates,
leaving the current network as mutated so far. -/
def buildNetworks (w : World) (k : Nat) :
    List Network → List Network × Nat × List Event × Option Err
  | [] => ([], k, [], none)
  | net :: rest =>
    match w.poolGet k with
    | .error e => (net :: rest, k + 1, [Event.poolGetE], some e)
    | .ok block =>
      let net1 := { net with ip_addresses := some block }
      match w.createNetwork net1 with
      | .error e =>
        (net1 :: rest, k + 1, [Event.poolGetE, Event.createNetworkE net1], some e)
      | .ok _ =>
        let net2 := { net1 with driver := true }
        match w.startNetwork net2 with
        | .error e =>
          (net2 :: rest, k + 1,
            [Event.poolGetE, Event.createNetworkE net1, Event.startNetworkE net2],
            some e)
        | .ok _ =>
          let (rest', k', tr, err) := buildNetworks w (k + 1) rest
          (net2 :: rest', k',
            Event.poolGetE :: Event.createNetworkE net1 ::
              Event.startNetworkE net2 :: tr,
            err)

/-- The disk loop of `Controller._build_node`: for each disk whose
`path is None`, `tempfile.mkstemp(prefix=work_dir + '/disk',
suffix='.' + format)` assigns the path, `os.chmod` sets
`disk_file_mode`, and `driver.create_disk` is called; disks with a
path are skipped. -/
def buildDisks (w : World) (wd : String) (k : Nat) :
    List Disk → List Disk × Nat × List Event × Option Err
  | [] => ([], k, [], none)
  | d :: rest =>
    match d.path with
    | some _ =>
      let (rest', k', tr, err) := buildDisks w wd k rest
      (d :: rest', k', tr, err)
    | none =>
      match w.mkstemp (wd ++ "/disk") ("." ++ d.format) k with
      | .error e => (d :: rest, k + 1, [Event.mkstempE (wd ++ "/disk") ("." ++ d.format)], some e)
      | .ok p =>
        let d1 := { d with path := some p }
        match w.chmod p disk_file_mode with
        | .error e =>
          (d1 :: rest, k + 1,
            [Event.mkstempE (wd ++ "/disk") ("." ++ d.format), Event.chmodE p disk_file_mode],
            some e)
        | .ok _ =>
          match w.createDisk d1 with
          | .error e =>
            (d1 :: rest, k + 1,
              [Event.mkstempE (wd ++ "/disk") ("." ++ d.format),
                Event.chmodE p disk_file_mode, Event.createDiskE d1],
              some e)
          | .ok _ =>
            let (rest', k', tr, err) := buildDisks w wd k rest
            (d1 :: rest', k',
              Event.mkstempE (wd ++ "/disk") ("." ++ d.format) ::
                Event.chmodE p disk_file_mode :: Event.createDiskE d1 :: tr,
              err)

/-- `Controller._build_node`: build the node's disks, then
`driver.create_node(node)`. -/
def buildNode (w : World) (wd : String) (k : Nat) (node : Node) :
    Node × Nat × List Event × Option Err :=
  match buildDisks w wd k node.disks with
  | (disks', k', tr, some e) => ({ node with disks := disks' }, k', tr, some e)
  | (disks', k', tr, none) =>
    let node1 := { node with disks := disks' }
    match w.createNode node1 with
    | .error e => (node1, k', tr ++ [Event.createNodeE node1], some e)
    | .ok _ => (node1, k', tr ++ [Event.createNodeE node1], none)

/-- The node loop of `build_environment`: `self._build_node` for each
node in order, then attach the node's driver reference. -/
def buildNodes (w : World) (wd : String) (k : Nat) :
    List Node → List Node × Nat × List Event × Option Err
  | [] => ([], k, [], none)
  | node :: rest =>
    match buildNode w wd k node with
    | (node', k', tr, some e) => (node' :: rest, k', tr, some e)
    | (node', k', tr, none) =>
      let node2 := { node' with driver := true }
      let (rest', k'', tr', err) := buildNodes w wd k' rest
      (node2 :: rest', k'', tr ++ tr', err)

/-- `getattr(environment, 'id', '-'.join([environment.name, randstr()]))`:
the id `build_environment` works with — the present one, or a fresh
`name + '-' + randstr()`. -/
def envIdOf (w : World) (env0 : Environment) : String :=
  match env0.id with
  | some i => i
  | none => env0.name ++ "-" ++ randstr w.choice 8

/-- `os.path.join(self.home_dir, 'environments', environment.id)`: the
working directory `build_environment` assigns. -/
def workDirOf (w : World) (env0 : Environment) : String :=
  w.home_dir ++ "/environments/" ++ envIdOf w env0

/-- Outcome of a controller operation: the (possibly partially) mutated
environment, the trace of external effects, and the raised error if
any. -/
structure BuildOut where
  env : Environment
  trace : List Event
  err : Option Err
deriving DecidableEq, Repr

/-- `Controller.build_environment`: assign `id` (via `getattr` with a
fresh `name + '-' + randstr()` default), create `work_dir`, attach the
driver, cache remote cdrom images, build every network, build every
node, and only then set `built = True`.  Any raised error propagates
immediately, leaving the environment as mutated so far. -/
def buildEnvironment (w : World) (env0 : Environment) : BuildOut :=
  let env_id := envIdOf w env0
  let env1 := { env0 with id := some env_id }
  let wd := workDirOf w env0
  let env2 := { env1 with work_dir := wd }
  match w.mkdir wd work_dir_mode with
  | .error e => { env := env2, trace := [], err := some e }
  | .ok _ =>
    let env3 := { env2 with driver := true }
    match cacheCdroms w env3.nodes with
    | (nodes', some e) =>
      { env := { env3 with nodes := nodes' },
        trace := [Event.mkdirE wd work_dir_mode], err := some e }
    | (nodes', none) =>
      let env4 := { env3 with nodes := nodes' }
      match buildNetworks w 0 env4.networks with
      | (nets', _, trN, some e) =>
        { env := { env4 with networks := nets' },
          trace := Event.mkdirE wd work_dir_mode :: trN, err := some e }
      | (nets', _, trN, none) =>
        let env5 := { env4 with networks := nets' }
        match buildNodes w wd 0 env5.nodes with
        | (ns', _, trD, some e) =>
          { env := { env5 with nodes := ns' },
            trace := Event.mkdirE wd work_dir_mode :: (trN ++ trD), err := some e }
        | (ns', _, trD, none) =>
          { env := { env5 with nodes := ns', built := true },
            trace := Event.mkdirE wd work_dir_mode :: (trN ++ trD), err := none }

/-- The node loop of `destroy_environment`: `node.stop()`,
`driver.delete_node(node)`, `del node.driver`; a raised error
propagates. -/
def destroyNodes (w : World) : List Node → List Node × List Event × Option Err
  | [] => ([], [], none)
  | node :: rest =>
    match w.stopNode node with
    | .error e => (node :: rest, [Event.stopNodeE node], some e)
    | .ok _ =>
      match w.deleteNode node with
      | .error e => (node :: rest, [Event.stopNodeE node, Event.deleteNodeE node], some e)
      | .ok _ =>
        let node' := { node with driver := false }
        let (rest', tr, err) := destroyNodes w rest
        (node' :: rest', Event.stopNodeE node :: Event.deleteNodeE node :: tr, err)

/-- The `try: pool.put(...) except: pass` of `destroy_environment`:
the call is made and its outcome discarded. -/
def tryPut (w : World) (ip : Option Nat) : Unit :=
  match w.poolPut ip with
  | .ok u => u
  | .error _ => ()

/-- The network loop of `destroy_environment`: `network.stop()`,
`driver.delete_network`, `del network.driver`, then
`pool.put(network.ip_addresses)` with any error swallowed. -/
def destroyNetworks (w : World) : List Network → List Network × List Event × Option Err
  | [] => ([], [], none)
  | net :: rest =>
    match w.stopNetwork net with
    | .error e => (net :: rest, [Event.stopNetworkE net], some e)
    | .ok _ =>
      match w.deleteNetwork net with
      | .error e => (net :: rest, [Event.stopNetworkE net, Event.deleteNetworkE net], some e)
      | .ok _ =>
        let net' := { net with driver := false }
        let _u : Unit := tryPut w net.ip_addresses
        let (rest', tr, err) := destroyNetworks w rest
        (net' :: rest',
          Event.stopNetworkE net :: Event.deleteNetworkE net ::
            Event.poolPutE net.ip_addresses :: tr,
          err)

/-- `Controller.destroy_environment`: destroy every node, then every
network (returning each address block with failures swallowed), drop
the environment's driver reference, and `shutil.rmtree(work_dir)`. -/
def destroyEnvironment (w : World) (env0 : Environment) : BuildOut :=
  match destroyNodes w env0.nodes with
  | (nodes', tr, some e) =>
    { env := { env0 with nodes := nodes' }, trace := tr, err := some e }
  | (nodes', tr, none) =>
    let env1 := { env0 with nodes := nodes' }
    match destroyNetworks w env1.networks with
    | (nets', tr', some e) =>
      { env := { env1 with networks := nets' }, trace := tr ++ tr', err := some e }
    | (nets', tr', none) =>
      let env2 := { env1 with networks := nets', driver := false }
      match w.rmtree env2.work_dir with
      | .error e =>
        { env := env2, trace := tr ++ tr' ++ [Event.rmtreeE env2.work_dir], err := some e }
      | .ok _ =>
        { env := env2, trace := tr ++ tr' ++ [Event.rmtreeE env2.work_dir], err := none }

/-- A node with its transient driver reference detached. -/
def stripNodeDriver (n : Node) : Node := { n with driver := false }

/-- A network with its transient driver reference detached. -/
def stripNetworkDriver (n : Network) : Network := { n with driver := false }

/-- An environment with every transient driver reference detached. -/
def stripDrivers (env : Environment) : Environment :=
  { env with
    driver := false,
    networks := env.networks.map stripNetworkDriver,
    nodes := env.nodes.map stripNodeDriver }

/-- Modelled from the spec: `devops.my_yaml.dump` is not under `src/`;
per §4.4 serialization is round-trip-safe for every persisted field
except transient driver references, so the serialized bytes are
represented abstractly by the environment with drivers detached. -/
def my_yaml_dump (env : Environment) : Environment :=
  stripDrivers env

/-- `Controller.save_environment`: dump the environment, raise
`DevopsError` if `built` is false, otherwise write the dump to
`work_dir/config`.  Result: the list of file writes performed
(path, serialized content) and the raised error if any. -/
def saveEnvironment (env : Environment) :
    List (String × Environment) × Option Err :=
  let data := my_yaml_dump env
  if !env.built then
    ([], some "Environment has not been built yet.")
  else
    ([(env.work_dir ++ "/config", data)], none)

/-- Oracle for the external calls `Controller._cache_file` makes. -/
structure CacheWorld where
  /-- The random part of `tempfile.mkstemp(prefix=cache_dir+'/')`,
  indexed by call number. -/
  tmpName : Nat → String
  /-- `urllib.urlretrieve(url, cached_path)`: download `url` to the
  given path, or raise. -/
  download : String → String → Except Err Unit

/-- The filesystem state `_cache_file` reads and writes: the parsed
content of the `entries` index file (`none` when the file does not
exist), whether the cache directory exists, the set of files present
in the cache directory, and the `mkstemp` call counter. -/
structure CacheFs where
  entriesFile : Option (List (String × String))
  cacheDirExists : Bool
  files : List String
  tmpCounter : Nat
deriving DecidableEq, Repr

/-- The index `_cache_file` works on: the parsed `entries` file, or an
empty dict when the file does not exist. -/
def entriesOf (st : CacheFs) : List (String × String) :=
  st.entriesFile.getD []

/-- `Controller._cache_file(url)` over cache directory `cache_dir`:
ensure the cache directory exists, load the index, return the indexed
path on hit; on miss `mkstemp` a fresh file, download into it, record
the mapping, persist the index, and return the new path.  Result:
(returned path or raised error, new filesystem state, whether a
download was attempted). -/
def cacheFile (w : CacheWorld) (cache_dir : String) (st : CacheFs) (url : String) :
    Except Err String × CacheFs × Bool :=
  let st0 := { st with cacheDirExists := true }
  let cache_entries := entriesOf st0
  match cache_entries.lookup url with
  | some p => (.ok p, st0, false)
  | none =>
    let cached_path := cache_dir ++ "/" ++ w.tmpName st0.tmpCounter
    let st1 := { st0 with
      tmpCounter := st0.tmpCounter + 1,
      files := cached_path :: st0.files }
    match w.download url cached_path with
    | .error e => (.error e, st1, true)
    | .ok _ =>
      let cache_entries' := cache_entries ++ [(url, cached_path)]
      let st2 := { st1 with entriesFile := some cache_entries' }
      (.ok cached_path, st2, true)

/-! ## Observation helpers and sample data -/

/-- Number of events in a trace satisfying `p`. -/
def countE (p : Event → Bool) (tr : List Event) : Nat := (tr.filter p).length

/-- Is the event a `pool.get()` call? -/
def isPoolGetE : Event → Bool
  | .poolGetE => true
  | _ => false

/-- Is the event a `driver.create_network` call? -/
def isCreateNetworkE : Event → Bool
  | .createNetworkE _ => true
  | _ => false

/-- Is the event a `network.start()` call? -/
def isStartNetworkE : Event → Bool
  | .startNetworkE _ => true
  | _ => false

/-- Is the event a `driver.create_node` call? -/
def isCreateNodeE : Event → Bool
  | .createNodeE _ => true
  | _ => false

/-- Is the event a `driver.delete_network` call? -/
def isDeleteNetworkE : Event → Bool
  | .deleteNetworkE _ => true
  | _ => false

/-- How the cdrom-caching loop relates an input node to its result:
all fields but `cdrom` are untouched; a remote `isopath` (containing a
URL scheme) is rewritten to the path `_cache_file` returned, a local
one is left untouched. -/
def cdRel (w : World) (n n' : Node) : Prop :=
  n'.name = n.name ∧ n'.disks = n.disks ∧ n'.driver = n.driver ∧
  (n.cdrom = none → n'.cdrom = none) ∧
  (∀ c, n.cdrom = some c →
    (containsScheme c.isopath = true →
      ∃ p, w.cacheFile c.isopath = .ok p ∧ n'.cdrom = some { isopath := p }) ∧
    (containsScheme c.isopath = false → n'.cdrom = n.cdrom))

/-- How `_build_node`'s disk loop relates an input disk to its result,
given the trace `tr` of the enclosing build: a disk without a path is
materialized via `mkstemp` (with the `disk` prefix and the format
suffix), `chmod`ed to `disk_file_mode`, and passed to `create_disk`;
a disk with a path is left exactly as it was. -/
def diskRel (w : World) (wd : String) (tr : List Event) (d d' : Disk) : Prop :=
  (d.path = none → ∃ p k, w.mkstemp (wd ++ "/disk") ("." ++ d.format) k = .ok p ∧
    d' = { d with path := some p } ∧
    Event.chmodE p disk_file_mode ∈ tr ∧
    Event.createDiskE { d with path := some p } ∈ tr) ∧
  (∀ q, d.path = some q → d' = d)

/-- How the node-building loop relates an input node to its result:
`name` and `cdrom` untouched, the driver reference attached, and the
disks materialized per `diskRel`. -/
def nodeRel (w : World) (wd : String) (tr : List Event) (n n' : Node) : Prop :=
  n'.name = n.name ∧ n'.cdrom = n.cdrom ∧ n'.driver = true ∧
  List.Forall₂ (diskRel w wd tr) n.disks n'.disks

/-- The trace produced by a fully successful node-teardown loop. -/
def destroyNodesTrace : List Node → List Event
  | [] => []
  | n :: rest => Event.stopNodeE n :: Event.deleteNodeE n :: destroyNodesTrace rest

/-- The trace produced by a fully successful network-teardown loop. -/
def destroyNetworksTrace : List Network → List Event
  | [] => []
  | net :: rest =>
    Event.stopNetworkE net :: Event.deleteNetworkE net ::
      Event.poolPutE net.ip_addresses :: destroyNetworksTrace rest

/-- A concrete oracle on which every external call succeeds. -/
def sampleWorld : World :=
  { home_dir := "/h",
    choice := fun _ => 'a',
    mkdir := fun _ _ => .ok (),
    cacheFile := fun u => .ok ("/h/cache/" ++ u),
    poolGet := fun k => .ok k,
    createNetwork := fun _ => .ok (),
    startNetwork := fun _ => .ok (),
    mkstemp := fun pre suf _ => .ok (pre ++ "T" ++ suf),
    chmod := fun _ _ => .ok (),
    createDisk := fun _ => .ok (),
    createNode := fun _ => .ok (),
    stopNode := fun _ => .ok (),
    deleteNode := fun _ => .ok (),
    stopNetwork := fun _ => .ok (),
    deleteNetwork := fun _ => .ok (),
    poolPut := fun _ => .ok (),
    rmtree := fun _ => .ok () }

/-- `sampleWorld` with a pool that rejects every address return. -/
def samplePutFailWorld : World :=
  { sampleWorld with poolPut := fun _ => .error "put failed" }

/-- A concrete unbuilt environment: one network, one node with a
fresh disk, a pre-provided disk, and a remote cdrom image. -/
def sampleEnv : Environment :=
  { id := none,
    name := "env0",
    work_dir := "",
    built := false,
    networks := [{ name := "net0", ip_addresses := none, driver := false }],
    nodes := [{ name := "node0",
                disks := [{ path := none, format := "qcow2" },
                          { path := some "/imgs/base.img", format := "qcow2" }],
                cdrom := some { isopath := "http://example.com/a.iso" },
                driver := false }],
    driver := false }

/-- A concrete built environment with driver references attached. -/
def sampleBuiltEnv : Environment :=
  { id := some "env0-aaaaaaaa",
    name := "env0",
    work_dir := "/h/environments/env0-aaaaaaaa",
    built := true,
    networks := [{ name := "net0", ip_addresses := some 0, driver := true }],
    nodes := [{ name := "node0",
                disks := [{ path := some "/h/environments/env0-aaaaaaaa/disk0.qcow2",
                            format := "qcow2" }],
                cdrom := none,
                driver := true }],
    driver := true }

/-! ## Helper lemmas -/

lemma lookup_append_fresh (es : List (String × String)) (url p : String)
    (h : es.lookup url = none) : (es ++ [(url, p)]).lookup url = some p := by
  induction es with
  | nil => simp [List.lookup]
  | cons kv rest ih =>
    rw [List.cons_append, List.lookup]
    rw [List.lookup] at h
    cases hq : (url == kv.1) with
    | true => rw [hq] at h; exact (Option.noConfusion (show some kv.2 = none from h))
    | false => rw [hq] at h; exact ih h

lemma ascii_letters_alphanum : string_ascii_letters.all Char.isAlphanum = true := by
  decide

lemma cacheFile_hit (w : CacheWorld) (cache_dir : String) (st : CacheFs)
    (url p : String) (h : (entriesOf st).lookup url = some p) :
    cacheFile w cache_dir st url = (.ok p, { st with cacheDirExists := true }, false) := by
  simp only [cacheFile, entriesOf] at h ⊢
  rw [h]

lemma cacheFile_miss_ok (w : CacheWorld) (cache_dir : String) (st : CacheFs)
    (url : String) (h : (entriesOf st).lookup url = none)
    (hd : w.download url (cache_dir ++ "/" ++ w.tmpName st.tmpCounter) = .ok ()) :
    cacheFile w cache_dir st url =
      (.ok (cache_dir ++ "/" ++ w.tmpName st.tmpCounter),
        { entriesFile := some (entriesOf st ++
            [(url, cache_dir ++ "/" ++ w.tmpName st.tmpCounter)]),
          cacheDirExists := true,
          files := (cache_dir ++ "/" ++ w.tmpName st.tmpCounter) :: st.files,
          tmpCounter := st.tmpCounter + 1 },
        true) := by
  simp only [cacheFile, entriesOf] at h ⊢
  rw [h, hd]

lemma cacheFile_miss_error (w : CacheWorld) (cache_dir : String) (st : CacheFs)
    (url e : String) (h : (entriesOf st).lookup url = none)
    (hd : w.download url (cache_dir ++ "/" ++ w.tmpName st.tmpCounter) = .error e) :
    cacheFile w cache_dir st url =
      (.error e,
        { entriesFile := st.entriesFile,
          cacheDirExists := true,
          files := (cache_dir ++ "/" ++ w.tmpName st.tmpCounter) :: st.files,
          tmpCounter := st.tmpCounter + 1 },
        true) := by
  simp only [cacheFile, entriesOf] at h ⊢
  rw [h, hd]

/-! ## Theorems settling the claims -/

/-- C2: for every environment whose `built` flag is false,
`save_environment` raises the "Environment has not been built yet."
`DevopsError` and performs no filesystem writes: no config file is
created or modified before the error is raised. -/
theorem save_unbuilt_raises_and_writes_nothing (env : Environment)
    (h : env.built = false) :
    saveEnvironment env = ([], some "Environment has not been built yet.") := by
  simp [saveEnvironment, h]

/-- C2 witness. -/
theorem save_unbuilt_raises_and_writes_nothing_witness :
    saveEnvironment
        { id := none, name := "env0", work_dir := "", built := false,
          networks := [], nodes := [], driver := false } =
      ([], some "Environment has not been built yet.") :=
  save_unbuilt_raises_and_writes_nothing
    { id := none, name := "env0", work_dir := "", built := false,
      networks := [], nodes := [], driver := false } rfl

/-- C7: when `save_environment` succeeds (`built` is true), it
serializes the full environment minus the transient driver references
to the file named `config` inside the environment's `work_dir`, and
that is its only write. -/
theorem save_built_writes_config (env : Environment) (h : env.built = true) :
    saveEnvironment env =
      ([(env.work_dir ++ "/config", stripDrivers env)], none) := by
  simp [saveEnvironment, my_yaml_dump, h]

/-- C7 witness. -/
theorem save_built_writes_config_witness :
    saveEnvironment
        { id := some "e-a", name := "e", work_dir := "/h/environments/e-a",
          built := true, networks := [], nodes := [], driver := true } =
      ([("/h/environments/e-a" ++ "/config",
          stripDrivers
            { id := some "e-a", name := "e", work_dir := "/h/environments/e-a",
              built := true, networks := [], nodes := [], driver := true })],
        none) :=
  save_built_writes_config
    { id := some "e-a", name := "e", work_dir := "/h/environments/e-a",
      built := true, networks := [], nodes := [], driver := true } rfl

/-- C4: calling `_cache_file` twice with the same URL performs exactly
one download and returns the identical local path both times; the
second call is a hit that returns the indexed path immediately without
re-downloading and without consulting which files still exist in the
cache directory (the conclusion holds for every value of the
filesystem's `files` component at the second call). -/
theorem cache_resolve_idempotent_one_download
    (w : CacheWorld) (cache_dir : String) (st : CacheFs) (url : String)
    (hmiss : (entriesOf st).lookup url = none)
    (hdl : ∀ p, w.download url p = .ok ()) :
    ∃ pth,
      (cacheFile w cache_dir st url).1 = .ok pth ∧
      (cacheFile w cache_dir st url).2.2 = true ∧
      ∀ files2,
        (cacheFile w cache_dir
            { (cacheFile w cache_dir st url).2.1 with files := files2 } url).1 =
          .ok pth ∧
        (cacheFile w cache_dir
            { (cacheFile w cache_dir st url).2.1 with files := files2 } url).2.2 =
          false := by
  refine ⟨cache_dir ++ "/" ++ w.tmpName st.tmpCounter, ?_⟩
  have h1 := cacheFile_miss_ok w cache_dir st url hmiss (hdl _)
  refine ⟨by rw [h1], by rw [h1], ?_⟩
  intro files2
  have hst : ({ (cacheFile w cache_dir st url).2.1 with files := files2 } : CacheFs) =
      { entriesFile := some (entriesOf st ++
          [(url, cache_dir ++ "/" ++ w.tmpName st.tmpCounter)]),
        cacheDirExists := true,
        files := files2,
        tmpCounter := st.tmpCounter + 1 } := by
    rw [h1]
  rw [hst, cacheFile_hit _ _ _ _ (cache_dir ++ "/" ++ w.tmpName st.tmpCounter)
    (lookup_append_fresh _ _ _ hmiss)]
  exact ⟨rfl, rfl⟩

/-- C4 witness: a fresh URL against an empty cache. -/
theorem cache_resolve_idempotent_one_download_witness :
    ∃ pth,
      (cacheFile ⟨fun _ => "t0", fun _ _ => .ok ()⟩ "/h/cache"
          ⟨none, false, [], 0⟩ "http://x/a.iso").1 = .ok pth ∧
      (cacheFile ⟨fun _ => "t0", fun _ _ => .ok ()⟩ "/h/cache"
          ⟨none, false, [], 0⟩ "http://x/a.iso").2.2 = true ∧
      ∀ files2,
        (cacheFile ⟨fun _ => "t0", fun _ _ => .ok ()⟩ "/h/cache"
            { (cacheFile ⟨fun _ => "t0", fun _ _ => .ok ()⟩ "/h/cache"
                ⟨none, false, [], 0⟩ "http://x/a.iso").2.1 with files := files2 }
            "http://x/a.iso").1 = .ok pth ∧
        (cacheFile ⟨fun _ => "t0", fun _ _ => .ok ()⟩ "/h/cache"
            { (cacheFile ⟨fun _ => "t0", fun _ _ => .ok ()⟩ "/h/cache"
                ⟨none, false, [], 0⟩ "http://x/a.iso").2.1 with files := files2 }
            "http://x/a.iso").2.2 = false :=
  cache_resolve_idempotent_one_download ⟨fun _ => "t0", fun _ _ => .ok ()⟩
    "/h/cache" ⟨none, false, [], 0⟩ "http://x/a.iso" rfl (fun _ => rfl)

/-- C5: `_cache_file` records the URL-to-path mapping in the persisted
index only after the download completes: if the download raises, the
persisted index is left exactly as it was (no partial-download entry);
if the call returns a path, that path is in the index and was either
already indexed or fully downloaded in this call. -/
theorem cache_index_entry_only_after_download
    (w : CacheWorld) (cache_dir : String) (st : CacheFs) (url : String) :
    (∀ e, (cacheFile w cache_dir st url).1 = .error e →
        (cacheFile w cache_dir st url).2.1.entriesFile = st.entriesFile) ∧
    (∀ p, (cacheFile w cache_dir st url).1 = .ok p →
        (entriesOf (cacheFile w cache_dir st url).2.1).lookup url = some p ∧
        ((entriesOf st).lookup url = some p ∨ w.download url p = .ok ())) := by
  cases hl : (entriesOf st).lookup url with
  | some p0 =>
    rw [cacheFile_hit w cache_dir st url p0 hl]
    constructor
    · intro e he; simp at he
    · intro p hp
      simp only [Except.ok.injEq] at hp
      subst hp
      exact ⟨hl, Or.inl rfl⟩
  | none =>
    cases hd : w.download url (cache_dir ++ "/" ++ w.tmpName st.tmpCounter) with
    | error e0 =>
      rw [cacheFile_miss_error w cache_dir st url e0 hl hd]
      constructor
      · intro e he; rfl
      · intro p hp; simp at hp
    | ok u =>
      cases u
      rw [cacheFile_miss_ok w cache_dir st url hl hd]
      constructor
      · intro e he; simp at he
      · intro p hp
        simp only [Except.ok.injEq] at hp
        subst hp
        exact ⟨lookup_append_fresh _ _ _ hl, Or.inr hd⟩

/-- C5 witness: a failing download leaves the index file untouched. -/
theorem cache_index_entry_only_after_download_witness :
    (cacheFile ⟨fun _ => "t0", fun _ _ => .error "boom"⟩ "/h/cache"
        ⟨none, false, [], 0⟩ "http://x/a.iso").2.1.entriesFile =
      (⟨none, false, [], 0⟩ : CacheFs).entriesFile :=
  (cache_index_entry_only_after_download ⟨fun _ => "t0", fun _ _ => .error "boom"⟩
    "/h/cache" ⟨none, false, [], 0⟩ "http://x/a.iso").1 "boom" rfl

/-- C6: `build_environment` leaves an already-present `id` unchanged,
and when `id` is absent assigns `name + '-' + randstr()`, where the
generated suffix has length 8 and consists of alphanumeric characters
(draws of `random.choice(string.ascii_letters)`). -/
theorem build_id_assignment (w : World) (env0 : Environment)
    (hc : ∀ i, w.choice i ∈ string_ascii_letters) :
    (∀ i, env0.id = some i → (buildEnvironment w env0).env.id = some i) ∧
    (env0.id = none →
      (buildEnvironment w env0).env.id =
        some (env0.name ++ "-" ++ randstr w.choice 8)) ∧
    (randstr w.choice 8).length = 8 ∧
    (∀ c ∈ (randstr w.choice 8).toList, c.isAlphanum = true) := by
  have hid : (buildEnvironment w env0).env.id = some (envIdOf w env0) := by
    simp only [buildEnvironment]
    repeat' split
    all_goals rfl
  refine ⟨?_, ?_, ?_, ?_⟩
  · intro i h; rw [hid]; simp [envIdOf, h]
  · intro h; rw [hid]; simp [envIdOf, h]
  · simp [randstr, String.length]
  · intro c hc'
    simp only [randstr, String.toList] at hc'
    obtain ⟨i, -, rfl⟩ := List.mem_map.mp hc'
    exact List.all_eq_true.mp ascii_letters_alphanum _ (hc i)

/-- C6 witness: an environment without an id gets `name-randstr()`. -/
theorem build_id_assignment_witness :
    (∀ i, sampleEnv.id = some i →
      (buildEnvironment sampleWorld sampleEnv).env.id = some i) ∧
    (sampleEnv.id = none →
      (buildEnvironment sampleWorld sampleEnv).env.id =
        some (sampleEnv.name ++ "-" ++ randstr sampleWorld.choice 8)) ∧
    (randstr sampleWorld.choice 8).length = 8 ∧
    (∀ c ∈ (randstr sampleWorld.choice 8).toList, c.isAlphanum = true) :=
  build_id_assignment sampleWorld sampleEnv
    (fun _ => by show 'a' ∈ string_ascii_letters; decide)

lemma destroyNodes_ok (w : World) (ns : List Node)
    (hstop : ∀ n, w.stopNode n = .ok ()) (hdel : ∀ n, w.deleteNode n = .ok ()) :
    destroyNodes w ns = (ns.map stripNodeDriver, destroyNodesTrace ns, none) := by
  induction ns with
  | nil => rfl
  | cons n rest ih =>
    simp only [destroyNodes, hstop n, hdel n, ih, List.map_cons, destroyNodesTrace,
      stripNodeDriver]

lemma destroyNetworks_ok (w : World) (nets : List Network)
    (hstop : ∀ n, w.stopNetwork n = .ok ()) (hdel : ∀ n, w.deleteNetwork n = .ok ()) :
    destroyNetworks w nets = (nets.map stripNetworkDriver, destroyNetworksTrace nets, none) := by
  induction nets with
  | nil => rfl
  | cons net rest ih =>
    simp only [destroyNetworks, hstop net, hdel net, ih, List.map_cons,
      destroyNetworksTrace, stripNetworkDriver]

lemma destroyEnvironment_ok (w : World) (env : Environment)
    (hstop : ∀ n, w.stopNode n = .ok ()) (hdel : ∀ n, w.deleteNode n = .ok ())
    (hsnet : ∀ n, w.stopNetwork n = .ok ()) (hdnet : ∀ n, w.deleteNetwork n = .ok ())
    (hrmt : ∀ p, w.rmtree p = .ok ()) :
    destroyEnvironment w env =
      { env := stripDrivers env,
        trace := destroyNodesTrace env.nodes ++ destroyNetworksTrace env.networks ++
          [Event.rmtreeE env.work_dir],
        err := none } := by
  simp only [destroyEnvironment, destroyNodes_ok w env.nodes hstop hdel]
  simp only [destroyNetworks_ok w _ hsnet hdnet, hrmt]
  rfl

lemma destroyNodes_ext (w w' : World) (h1 : w'.stopNode = w.stopNode)
    (h2 : w'.deleteNode = w.deleteNode) (ns : List Node) :
    destroyNodes w' ns = destroyNodes w ns := by
  induction ns with
  | nil => rfl
  | cons n rest ih => simp only [destroyNodes, h1, h2, ih]

lemma destroyNetworks_ext (w w' : World) (h1 : w'.stopNetwork = w.stopNetwork)
    (h2 : w'.deleteNetwork = w.deleteNetwork) (nets : List Network) :
    destroyNetworks w' nets = destroyNetworks w nets := by
  induction nets with
  | nil => rfl
  | cons net rest ih => simp only [destroyNetworks, h1, h2, ih]

lemma destroyEnvironment_ext (w w' : World) (env : Environment)
    (hsn : w'.stopNode = w.stopNode) (hdn : w'.deleteNode = w.deleteNode)
    (hsw : w'.stopNetwork = w.stopNetwork) (hdw : w'.deleteNetwork = w.deleteNetwork)
    (hrm : w'.rmtree = w.rmtree) :
    destroyEnvironment w' env = destroyEnvironment w env := by
  simp only [destroyEnvironment, destroyNodes_ext w w' hsn hdn,
    destroyNetworks_ext w w' hsw hdw, hrm]

lemma destroyNodes_err (w : World) (ns : List Node) (e : Err)
    (h : (destroyNodes w ns).2.2 = some e) :
    (∃ n, w.stopNode n = .error e) ∨ (∃ n, w.deleteNode n = .error e) := by
  induction ns with
  | nil => simp [destroyNodes] at h
  | cons n rest ih =>
    cases hs : w.stopNode n with
    | error e0 =>
      simp only [destroyNodes, hs] at h
      obtain rfl : e0 = e := by simpa using h
      exact Or.inl ⟨n, hs⟩
    | ok u =>
      cases u
      cases hd : w.deleteNode n with
      | error e0 =>
        simp only [destroyNodes, hs, hd] at h
        obtain rfl : e0 = e := by simpa using h
        exact Or.inr ⟨n, hd⟩
      | ok u =>
        cases u
        rcases hrec : destroyNodes w rest with ⟨rest', tr, err⟩
        simp only [destroyNodes, hs, hd, hrec] at h
        exact ih (by rw [hrec]; exact h)

lemma destroyNetworks_err (w : World) (nets : List Network) (e : Err)
    (h : (destroyNetworks w nets).2.2 = some e) :
    (∃ n, w.stopNetwork n = .error e) ∨ (∃ n, w.deleteNetwork n = .error e) := by
  induction nets with
  | nil => simp [destroyNetworks] at h
  | cons net rest ih =>
    cases hs : w.stopNetwork net with
    | error e0 =>
      simp only [destroyNetworks, hs] at h
      obtain rfl : e0 = e := by simpa using h
      exact Or.inl ⟨net, hs⟩
    | ok u =>
      cases u
      cases hd : w.deleteNetwork net with
      | error e0 =>
        simp only [destroyNetworks, hs, hd] at h
        obtain rfl : e0 = e := by simpa using h
        exact Or.inr ⟨net, hd⟩
      | ok u =>
        cases u
        rcases hrec : destroyNetworks w rest with ⟨rest', tr, err⟩
        simp only [destroyNetworks, hs, hd, hrec] at h
        exact ih (by rw [hrec]; exact h)

lemma destroyEnvironment_err (w : World) (env : Environment) (e : Err)
    (h : (destroyEnvironment w env).err = some e) :
    (∃ n, w.stopNode n = .error e) ∨ (∃ n, w.deleteNode n = .error e) ∨
    (∃ net, w.stopNetwork net = .error e) ∨ (∃ net, w.deleteNetwork net = .error e) ∨
    w.rmtree env.work_dir = .error e := by
  rcases hn : destroyNodes w env.nodes with ⟨nodes', trn, errn⟩
  cases errn with
  | some e0 =>
    simp only [destroyEnvironment, hn] at h
    obtain rfl : e0 = e := by simpa using h
    rcases destroyNodes_err w env.nodes e0 (by rw [hn]) with h' | h'
    · exact Or.inl h'
    · exact Or.inr (Or.inl h')
  | none =>
    rcases hw : destroyNetworks w env.networks with ⟨nets', trw, errw⟩
    cases errw with
    | some e0 =>
      simp only [destroyEnvironment, hn, hw] at h
      obtain rfl : e0 = e := by simpa using h
      rcases destroyNetworks_err w env.networks e0 (by rw [hw]) with h' | h'
      · exact Or.inr (Or.inr (Or.inl h'))
      · exact Or.inr (Or.inr (Or.inr (Or.inl h')))
    | none =>
      cases hr : w.rmtree env.work_dir with
      | error e0 =>
        simp only [destroyEnvironment, hn, hw, hr] at h
        obtain rfl : e0 = e := by simpa using h
        exact Or.inr (Or.inr (Or.inr (Or.inr rfl)))
      | ok u =>
        cases u
        simp [destroyEnvironment, hn, hw, hr] at h

lemma countE_append (p : Event → Bool) (t1 t2 : List Event) :
    countE p (t1 ++ t2) = countE p t1 + countE p t2 := by
  simp [countE, List.filter_append]

lemma countE_deleteNetwork_nodesTrace (ns : List Node) :
    countE isDeleteNetworkE (destroyNodesTrace ns) = 0 := by
  induction ns with
  | nil => rfl
  | cons n rest ih =>
    simp [destroyNodesTrace, countE, List.filter, isDeleteNetworkE] at ih ⊢
    exact ih

lemma countE_deleteNetwork_networksTrace (nets : List Network) :
    countE isDeleteNetworkE (destroyNetworksTrace nets) = nets.length := by
  induction nets with
  | nil => rfl
  | cons net rest ih =>
    simp [destroyNetworksTrace, countE, List.filter, isDeleteNetworkE] at ih ⊢
    exact ih

lemma forall2_compose {α β γ : Type} {R : α → β → Prop} {S : β → γ → Prop}
    {T : α → γ → Prop} (h : ∀ a b c, R a b → S b c → T a c) :
    ∀ {l1 : List α} {l2 : List β} {l3 : List γ},
      List.Forall₂ R l1 l2 → List.Forall₂ S l2 l3 → List.Forall₂ T l1 l3 := by
  intro l1 l2 l3 h12
  induction h12 generalizing l3 with
  | nil => intro h23; cases h23; exact List.Forall₂.nil
  | cons hab h' ih =>
    intro h23
    cases h23 with
    | cons hbc h'' => exact List.Forall₂.cons (h _ _ _ hab hbc) (ih h'')

lemma diskRel_mono {w : World} {wd : String} {tr tr' : List Event}
    (hsub : ∀ e ∈ tr, e ∈ tr') {d d' : Disk} (h : diskRel w wd tr d d') :
    diskRel w wd tr' d d' := by
  obtain ⟨h1, h2⟩ := h
  refine ⟨?_, h2⟩
  intro hp
  obtain ⟨p, k, hmk, hd, hc, hcr⟩ := h1 hp
  exact ⟨p, k, hmk, hd, hsub _ hc, hsub _ hcr⟩

lemma nodeRel_mono {w : World} {wd : String} {tr tr' : List Event}
    (hsub : ∀ e ∈ tr, e ∈ tr') {n n' : Node} (h : nodeRel w wd tr n n') :
    nodeRel w wd tr' n n' :=
  ⟨h.1, h.2.1, h.2.2.1, h.2.2.2.imp (fun _ _ hd => diskRel_mono hsub hd)⟩

lemma cacheCdroms_ok (w : World) : ∀ (ns ns' : List Node),
    cacheCdroms w ns = (ns', none) → List.Forall₂ (cdRel w) ns ns' := by
  intro ns
  induction ns with
  | nil =>
    intro ns' h
    simp only [cacheCdroms] at h
    obtain ⟨rfl, -⟩ := Prod.mk.injEq .. ▸ h
    exact List.Forall₂.nil
  | cons node rest ih =>
    intro ns' h
    cases hcd : node.cdrom with
    | none =>
      rcases hrec : cacheCdroms w rest with ⟨rest', err⟩
      simp only [cacheCdroms, hcd, hrec] at h
      obtain ⟨h1, h2⟩ := Prod.mk.injEq .. ▸ h
      subst h1
      subst h2
      refine List.Forall₂.cons ?_ (ih rest' hrec)
      exact ⟨rfl, rfl, rfl, fun _ => hcd,
        fun c hc => by rw [hcd] at hc; cases hc⟩
    | some c =>
      cases hsc : containsScheme c.isopath with
      | true =>
        cases hcf : w.cacheFile c.isopath with
        | error e =>
          simp [cacheCdroms, hcd, hsc, hcf] at h
        | ok p =>
          rcases hrec : cacheCdroms w rest with ⟨rest', err⟩
          simp only [cacheCdroms, hcd, hsc, hcf, hrec, if_true] at h
          obtain ⟨h1, h2⟩ := Prod.mk.injEq .. ▸ h
          subst h1
          subst h2
          refine List.Forall₂.cons ?_ (ih rest' hrec)
          refine ⟨rfl, rfl, rfl, (fun hn => by simp [hcd] at hn), ?_⟩
          intro c' hc'
          rw [hcd] at hc'
          injection hc' with hc''
          subst hc''
          constructor
          · intro _; exact ⟨p, hcf, rfl⟩
          · intro hfalse; rw [hsc] at hfalse; cases hfalse
      | false =>
        rcases hrec : cacheCdroms w rest with ⟨rest', err⟩
        simp only [cacheCdroms, hcd, hsc, hrec, Bool.false_eq_true, if_false] at h
        obtain ⟨h1, h2⟩ := Prod.mk.injEq .. ▸ h
        subst h1
        subst h2
        refine List.Forall₂.cons ?_ (ih rest' hrec)
        refine ⟨rfl, rfl, rfl, (fun hn => by simp [hcd] at hn), ?_⟩
        intro c' hc'
        rw [hcd] at hc'
        injection hc' with hc''
        subst hc''
        constructor
        · intro htrue; rw [hsc] at htrue; cases htrue
        · intro _; rfl

lemma buildNetworks_ok (w : World) : ∀ (k : Nat) (nets nets' : List Network)
    (k' : Nat) (tr : List Event), buildNetworks w k nets = (nets', k', tr, none) →
    (∀ n ∈ nets', n.ip_addresses.isSome = true ∧ n.driver = true) ∧
    nets'.length = nets.length ∧
    countE isPoolGetE tr = nets.length ∧
    countE isCreateNetworkE tr = nets.length ∧
    countE isStartNetworkE tr = nets.length ∧
    countE isCreateNodeE tr = 0 := by
  intro k nets
  induction nets generalizing k with
  | nil =>
    intro nets' k' tr h
    simp only [buildNetworks, Prod.mk.injEq] at h
    obtain ⟨rfl, -, rfl, -⟩ := h
    simp [countE]
  | cons net rest ih =>
    intro nets' k' tr h
    cases hg : w.poolGet k with
    | error e => simp [buildNetworks, hg] at h
    | ok block =>
      simp only [buildNetworks, hg] at h
      cases hcn : w.createNetwork { net with ip_addresses := some block } with
      | error e => simp [hcn] at h
      | ok u =>
        cases u
        simp only [hcn] at h
        cases hsn : w.startNetwork
            { name := net.name, ip_addresses := some block, driver := true } with
        | error e => simp [hsn] at h
        | ok u =>
          cases u
          simp only [hsn] at h
          rcases hrec : buildNetworks w (k + 1) rest with ⟨rest', k2, tr2, err⟩
          simp only [hrec] at h
          simp only [Prod.mk.injEq] at h
          obtain ⟨rfl, -, rfl, herr⟩ := h
          obtain ⟨hmem, hlen, hc1, hc2, hc3, hc4⟩ :=
            ih (k + 1) rest' k2 tr2 (by rw [hrec, herr])
          refine ⟨?_, ?_, ?_, ?_, ?_, ?_⟩
          · intro n hn
            rcases List.mem_cons.mp hn with rfl | hn'
            · exact ⟨rfl, rfl⟩
            · exact hmem n hn'
          · simpa using hlen
          · simpa [countE, List.filter, isPoolGetE] using hc1
          · simpa [countE, List.filter, isCreateNetworkE] using hc2
          · simpa [countE, List.filter, isStartNetworkE] using hc3
          · simpa [countE, List.filter, isCreateNodeE] using hc4

lemma buildDisks_ok (w : World) (wd : String) : ∀ (k : Nat) (ds ds' : List Disk)
    (k' : Nat) (tr : List Event), buildDisks w wd k ds = (ds', k', tr, none) →
    List.Forall₂ (diskRel w wd tr) ds ds' ∧
    countE isCreateNodeE tr = 0 ∧ countE isPoolGetE tr = 0 ∧
    countE isCreateNetworkE tr = 0 ∧ countE isStartNetworkE tr = 0 := by
  intro k ds
  induction ds generalizing k with
  | nil =>
    intro ds' k' tr h
    simp only [buildDisks, Prod.mk.injEq] at h
    obtain ⟨rfl, -, rfl, -⟩ := h
    simp [countE]
  | cons d rest ih =>
    intro ds' k' tr h
    cases hp : d.path with
    | some q =>
      simp only [buildDisks, hp] at h
      rcases hrec : buildDisks w wd k rest with ⟨rest', k2, tr2, err⟩
      simp only [hrec, Prod.mk.injEq] at h
      obtain ⟨rfl, -, rfl, herr⟩ := h
      obtain ⟨hrel, hc1, hc2, hc3, hc4⟩ := ih k rest' k2 tr2 (by rw [hrec, herr])
      refine ⟨List.Forall₂.cons ⟨?_, fun q' _ => rfl⟩ hrel, hc1, hc2, hc3, hc4⟩
      intro hnone
      rw [hp] at hnone
      cases hnone
    | none =>
      simp only [buildDisks, hp] at h
      cases hmk : w.mkstemp (wd ++ "/disk") ("." ++ d.format) k with
      | error e => simp [hmk] at h
      | ok p =>
        simp only [hmk] at h
        cases hch : w.chmod p disk_file_mode with
        | error e => simp [hch] at h
        | ok u =>
          cases u
          simp only [hch] at h
          cases hcd : w.createDisk { d with path := some p } with
          | error e => simp [hcd] at h
          | ok u =>
            cases u
            simp only [hcd] at h
            rcases hrec : buildDisks w wd k rest with ⟨rest', k2, tr2, err⟩
            simp only [hrec, Prod.mk.injEq] at h
            obtain ⟨rfl, -, rfl, herr⟩ := h
            obtain ⟨hrel, hc1, hc2, hc3, hc4⟩ := ih k rest' k2 tr2 (by rw [hrec, herr])
            have hsub : ∀ e ∈ tr2,
                e ∈ Event.mkstempE (wd ++ "/disk") ("." ++ d.format) ::
                  Event.chmodE p disk_file_mode ::
                  Event.createDiskE { d with path := some p } :: tr2 := by
              intro e he
              simp [he]
            refine ⟨List.Forall₂.cons ⟨?_, ?_⟩ (hrel.imp fun _ _ hd => diskRel_mono hsub hd),
              ?_, ?_, ?_, ?_⟩
            · intro _
              exact ⟨p, k, hmk, rfl, by simp, by simp⟩
            · intro q hq
              rw [hp] at hq
              cases hq
            · simpa [countE, List.filter, isCreateNodeE] using hc1
            · simpa [countE, List.filter, isPoolGetE] using hc2
            · simpa [countE, List.filter, isCreateNetworkE] using hc3
            · simpa [countE, List.filter, isStartNetworkE] using hc4

lemma buildNode_ok (w : World) (wd : String) (k : Nat) (node node' : Node)
    (k' : Nat) (tr : List Event) (h : buildNode w wd k node = (node', k', tr, none)) :
    node'.name = node.name ∧ node'.cdrom = node.cdrom ∧ node'.driver = node.driver ∧
    List.Forall₂ (diskRel w wd tr) node.disks node'.disks ∧
    countE isCreateNodeE tr = 1 ∧ countE isPoolGetE tr = 0 ∧
    countE isCreateNetworkE tr = 0 ∧ countE isStartNetworkE tr = 0 := by
  rcases hbd : buildDisks w wd k node.disks with ⟨disks', k2, trD, errD⟩
  cases errD with
  | some e => simp [buildNode, hbd] at h
  | none =>
    simp only [buildNode, hbd] at h
    cases hcn : w.createNode { node with disks := disks' } with
    | error e => simp [hcn] at h
    | ok u =>
      cases u
      simp only [hcn, Prod.mk.injEq] at h
      obtain ⟨rfl, -, rfl, -⟩ := h
      obtain ⟨hrel, hc1, hc2, hc3, hc4⟩ := buildDisks_ok w wd k node.disks disks' k2 trD hbd
      have hsub : ∀ e ∈ trD, e ∈ trD ++ [Event.createNodeE { node with disks := disks' }] :=
        fun e he => List.mem_append_left _ he
      refine ⟨rfl, rfl, rfl, hrel.imp fun _ _ hd => diskRel_mono hsub hd, ?_, ?_, ?_, ?_⟩
      · rw [countE_append, hc1]; simp [countE, List.filter, isCreateNodeE]
      · rw [countE_append, hc2]; simp [countE, List.filter, isPoolGetE]
      · rw [countE_append, hc3]; simp [countE, List.filter, isCreateNetworkE]
      · rw [countE_append, hc4]; simp [countE, List.filter, isStartNetworkE]

lemma buildNodes_ok (w : World) (wd : String) : ∀ (k : Nat) (ns ns' : List Node)
    (k' : Nat) (tr : List Event), buildNodes w wd k ns = (ns', k', tr, none) →
    List.Forall₂ (nodeRel w wd tr) ns ns' ∧
    countE isCreateNodeE tr = ns.length ∧ countE isPoolGetE tr = 0 ∧
    countE isCreateNetworkE tr = 0 ∧ countE isStartNetworkE tr = 0 := by
  intro k ns
  induction ns generalizing k with
  | nil =>
    intro ns' k' tr h
    simp only [buildNodes, Prod.mk.injEq] at h
    obtain ⟨rfl, -, rfl, -⟩ := h
    simp [countE]
  | cons node rest ih =>
    intro ns' k' tr h
    rcases hbn : buildNode w wd k node with ⟨node1, k2, tr1, err1⟩
    cases err1 with
    | some e => simp [buildNodes, hbn] at h
    | none =>
      simp only [buildNodes, hbn] at h
      rcases hrec : buildNodes w wd k2 rest with ⟨rest', k3, tr2, err2⟩
      simp only [hrec, Prod.mk.injEq] at h
      obtain ⟨rfl, -, rfl, herr⟩ := h
      obtain ⟨hn1, hn2, hn3, hn4, hd1, hd2, hd3, hd4⟩ :=
        buildNode_ok w wd k node node1 k2 tr1 hbn
      obtain ⟨hrel, hc1, hc2, hc3, hc4⟩ := ih k2 rest' k3 tr2 (by rw [hrec, herr])
      have hsub1 : ∀ e ∈ tr1, e ∈ tr1 ++ tr2 := fun e he => List.mem_append_left _ he
      have hsub2 : ∀ e ∈ tr2, e ∈ tr1 ++ tr2 := fun e he => List.mem_append_right _ he
      refine ⟨List.Forall₂.cons ?_ (hrel.imp fun _ _ hd => nodeRel_mono hsub2 hd),
        ?_, ?_, ?_, ?_⟩
      · exact ⟨hn1, hn2, rfl, hn4.imp fun _ _ hd => diskRel_mono hsub1 hd⟩
      · simp only [countE_append, hd1, hc1, List.length_cons]
        omega
      · simp [countE_append, hd2, hc2]
      · simp [countE_append, hd3, hc3]
      · simp [countE_append, hd4, hc4]

lemma countE_cons (p : Event → Bool) (e : Event) (tr : List Event) :
    countE p (e :: tr) = (if p e then 1 else 0) + countE p tr := by
  cases hpe : p e <;> simp [countE, List.filter_cons, hpe, Nat.add_comm]

lemma buildEnvironment_built (w : World) (env0 : Environment) :
    ((buildEnvironment w env0).err = none → (buildEnvironment w env0).env.built = true) ∧
    ((buildEnvironment w env0).err ≠ none →
      (buildEnvironment w env0).env.built = env0.built) := by
  simp only [buildEnvironment]
  repeat' split
  all_goals simp

lemma buildEnvironment_ok_cases (w : World) (env0 : Environment)
    (h : (buildEnvironment w env0).err = none) :
    ∃ nodesC nets' kN trN nodes' kD trD,
      cacheCdroms w env0.nodes = (nodesC, none) ∧
      buildNetworks w 0 env0.networks = (nets', kN, trN, none) ∧
      buildNodes w (workDirOf w env0) 0 nodesC = (nodes', kD, trD, none) ∧
      buildEnvironment w env0 =
        { env :=
            { env0 with
              id := some (envIdOf w env0),
              work_dir := workDirOf w env0,
              driver := true,
              networks := nets',
              nodes := nodes',
              built := true },
          trace := Event.mkdirE (workDirOf w env0) work_dir_mode :: (trN ++ trD),
          err := none } := by
  cases hmk : w.mkdir (workDirOf w env0) work_dir_mode with
  | error e => simp [buildEnvironment, hmk] at h
  | ok u =>
    cases u
    rcases hcc : cacheCdroms w env0.nodes with ⟨nodesC, errC⟩
    cases errC with
    | some e => simp [buildEnvironment, hmk, hcc] at h
    | none =>
      rcases hbn : buildNetworks w 0 env0.networks with ⟨nets', kN, trN, errN⟩
      cases errN with
      | some e => simp [buildEnvironment, hmk, hcc, hbn] at h
      | none =>
        rcases hnd : buildNodes w (workDirOf w env0) 0 nodesC with ⟨nodes', kD, trD, errD⟩
        cases errD with
        | some e => simp [buildEnvironment, hmk, hcc, hbn, hnd] at h
        | none =>
          refine ⟨nodesC, nets', kN, trN, nodes', kD, trD, rfl, rfl, hnd, ?_⟩
          simp only [buildEnvironment, hmk, hcc, hbn, hnd]

/-- C1: `build_environment` sets `built` to true exactly when every
step succeeded — the returned environment has `built = true` iff no
error was raised, and in that case every network carries an allocated
address block and an attached driver and the trace holds one
`pool.get`, one `create_network` and one `start` per network and one
`create_node` per node; if any step raises, the propagated error
leaves `built` false. -/
theorem build_sets_built_only_after_success (w : World) (env0 : Environment)
    (h : env0.built = false) :
    ((buildEnvironment w env0).env.built = true ↔ (buildEnvironment w env0).err = none) ∧
    ((buildEnvironment w env0).err = none →
      (∀ net ∈ (buildEnvironment w env0).env.networks,
        net.ip_addresses.isSome = true ∧ net.driver = true) ∧
      countE isPoolGetE (buildEnvironment w env0).trace = env0.networks.length ∧
      countE isCreateNetworkE (buildEnvironment w env0).trace = env0.networks.length ∧
      countE isStartNetworkE (buildEnvironment w env0).trace = env0.networks.length ∧
      countE isCreateNodeE (buildEnvironment w env0).trace = env0.nodes.length) ∧
    (∀ e, (buildEnvironment w env0).err = some e →
      (buildEnvironment w env0).env.built = false) := by
  have hb := buildEnvironment_built w env0
  refine ⟨?_, ?_, ?_⟩
  · constructor
    · intro ht
      by_contra hne
      rw [hb.2 hne, h] at ht
      cases ht
    · intro he
      exact hb.1 he
  · intro he
    obtain ⟨nodesC, nets', kN, trN, nodes', kD, trD, hcc, hbn, hnd, heq⟩ :=
      buildEnvironment_ok_cases w env0 he
    have hnets : (buildEnvironment w env0).env.networks = nets' := by rw [heq]
    have htr : (buildEnvironment w env0).trace =
        Event.mkdirE (workDirOf w env0) work_dir_mode :: (trN ++ trD) := by rw [heq]
    obtain ⟨hmem, hlen, hn1, hn2, hn3, hn0⟩ :=
      buildNetworks_ok w 0 env0.networks nets' kN trN hbn
    obtain ⟨hrelN, hm1, hm2, hm3, hm4⟩ :=
      buildNodes_ok w (workDirOf w env0) 0 nodesC nodes' kD trD hnd
    have hlenC : nodesC.length = env0.nodes.length :=
      (cacheCdroms_ok w env0.nodes nodesC hcc).length_eq.symm
    refine ⟨?_, ?_, ?_, ?_, ?_⟩
    · rw [hnets]; exact hmem
    · rw [htr, countE_cons, countE_append, hn1, hm2]; simp [isPoolGetE]
    · rw [htr, countE_cons, countE_append, hn2, hm3]; simp [isCreateNetworkE]
    · rw [htr, countE_cons, countE_append, hn3, hm4]; simp [isStartNetworkE]
    · rw [htr, countE_cons, countE_append, hn0, hm1, hlenC]; simp [isCreateNodeE]
  · intro e he
    rw [hb.2 (by simp [he]), h]

/-- C1 witness. -/
theorem build_sets_built_only_after_success_witness :
    ((buildEnvironment sampleWorld sampleEnv).env.built = true ↔
      (buildEnvironment sampleWorld sampleEnv).err = none) ∧
    ((buildEnvironment sampleWorld sampleEnv).err = none →
      (∀ net ∈ (buildEnvironment sampleWorld sampleEnv).env.networks,
        net.ip_addresses.isSome = true ∧ net.driver = true) ∧
      countE isPoolGetE (buildEnvironment sampleWorld sampleEnv).trace =
        sampleEnv.networks.length ∧
      countE isCreateNetworkE (buildEnvironment sampleWorld sampleEnv).trace =
        sampleEnv.networks.length ∧
      countE isStartNetworkE (buildEnvironment sampleWorld sampleEnv).trace =
        sampleEnv.networks.length ∧
      countE isCreateNodeE (buildEnvironment sampleWorld sampleEnv).trace =
        sampleEnv.nodes.length) ∧
    (∀ e, (buildEnvironment sampleWorld sampleEnv).err = some e →
      (buildEnvironment sampleWorld sampleEnv).env.built = false) :=
  build_sets_built_only_after_success sampleWorld sampleEnv rfl

/-- C9: on a successful build, every node whose cdrom image path holds
a URL scheme (`'://'`) has its path rewritten to the path returned by
the cache resolution, and every node whose cdrom image path is local
keeps it untouched. -/
theorem build_rewrites_remote_cdrom_paths (w : World) (env0 : Environment)
    (h : (buildEnvironment w env0).err = none) :
    List.Forall₂ (fun n n' =>
      (∀ c, n.cdrom = some c →
        (containsScheme c.isopath = true →
          ∃ p, w.cacheFile c.isopath = .ok p ∧ n'.cdrom = some { isopath := p }) ∧
        (containsScheme c.isopath = false → n'.cdrom = n.cdrom)) ∧
      (n.cdrom = none → n'.cdrom = none))
      env0.nodes (buildEnvironment w env0).env.nodes := by
  obtain ⟨nodesC, nets', kN, trN, nodes', kD, trD, hcc, hbn, hnd, heq⟩ :=
    buildEnvironment_ok_cases w env0 h
  have hnodes : (buildEnvironment w env0).env.nodes = nodes' := by rw [heq]
  rw [hnodes]
  have h1 := cacheCdroms_ok w env0.nodes nodesC hcc
  have h2 := (buildNodes_ok w (workDirOf w env0) 0 nodesC nodes' kD trD hnd).1
  refine forall2_compose ?_ h1 h2
  intro n nC n' hR hS
  obtain ⟨-, -, -, hnone, hsome⟩ := hR
  obtain ⟨-, hcd', -, -⟩ := hS
  constructor
  · intro c hc
    obtain ⟨ht, hf⟩ := hsome c hc
    constructor
    · intro hsch
      obtain ⟨p, hp, hnc⟩ := ht hsch
      exact ⟨p, hp, by rw [hcd', hnc]⟩
    · intro hsch
      rw [hcd', hf hsch]
  · intro hc
    rw [hcd', hnone hc]

/-- C9 witness. -/
theorem build_rewrites_remote_cdrom_paths_witness :
    List.Forall₂ (fun n n' =>
      (∀ c, n.cdrom = some c →
        (containsScheme c.isopath = true →
          ∃ p, sampleWorld.cacheFile c.isopath = .ok p ∧
            n'.cdrom = some { isopath := p }) ∧
        (containsScheme c.isopath = false → n'.cdrom = n.cdrom)) ∧
      (n.cdrom = none → n'.cdrom = none))
      sampleEnv.nodes (buildEnvironment sampleWorld sampleEnv).env.nodes :=
  build_rewrites_remote_cdrom_paths sampleWorld sampleEnv (by decide)

/-- C8: on a successful build, every disk whose `path` was null is
materialized inside `work_dir` with a `disk` name prefix and the
disk's format as suffix, `chmod`ed to the owner/group read-write mode,
and handed to `driver.create_disk`; a disk whose `path` was already
set is returned exactly as it was — never re-materialized, its path
never reassigned. -/
theorem build_materializes_null_path_disks (w : World) (env0 : Environment)
    (hmkc : ∀ pre suf k p, w.mkstemp pre suf k = .ok p → ∃ mid, p = pre ++ mid ++ suf)
    (h : (buildEnvironment w env0).err = none) :
    disk_file_mode &&& 0o660 = 0o660 ∧
    List.Forall₂ (fun n n' =>
      List.Forall₂ (fun d d' =>
        (d.path = none → ∃ mid,
          d'.path = some ((buildEnvironment w env0).env.work_dir ++ "/disk" ++ mid ++
            ("." ++ d.format)) ∧
          d'.format = d.format ∧
          Event.chmodE ((buildEnvironment w env0).env.work_dir ++ "/disk" ++ mid ++
            ("." ++ d.format)) disk_file_mode ∈ (buildEnvironment w env0).trace ∧
          Event.createDiskE d' ∈ (buildEnvironment w env0).trace) ∧
        (∀ q, d.path = some q → d' = d)) n.disks n'.disks)
      env0.nodes (buildEnvironment w env0).env.nodes := by
  refine ⟨by decide, ?_⟩
  obtain ⟨nodesC, nets', kN, trN, nodes', kD, trD, hcc, hbn, hnd, heq⟩ :=
    buildEnvironment_ok_cases w env0 h
  have hnodes : (buildEnvironment w env0).env.nodes = nodes' := by rw [heq]
  have hwd : (buildEnvironment w env0).env.work_dir = workDirOf w env0 := by rw [heq]
  have htr : (buildEnvironment w env0).trace =
      Event.mkdirE (workDirOf w env0) work_dir_mode :: (trN ++ trD) := by rw [heq]
  rw [hnodes, hwd, htr]
  have hlift : ∀ e ∈ trD,
      e ∈ Event.mkdirE (workDirOf w env0) work_dir_mode :: (trN ++ trD) :=
    fun e he => List.mem_cons_of_mem _ (List.mem_append_right _ he)
  have h1 := cacheCdroms_ok w env0.nodes nodesC hcc
  have h2 := (buildNodes_ok w (workDirOf w env0) 0 nodesC nodes' kD trD hnd).1
  refine forall2_compose ?_ h1 h2
  intro n nC n' hR hS
  obtain ⟨-, hdisks, -, -, -⟩ := hR
  obtain ⟨-, -, -, hfd⟩ := hS
  rw [hdisks] at hfd
  refine hfd.imp ?_
  intro d d' hd
  obtain ⟨h1', h2'⟩ := hd
  refine ⟨?_, h2'⟩
  intro hp
  obtain ⟨p, k0, hmk, hdeq, hch, hcr⟩ := h1' hp
  obtain ⟨mid, rfl⟩ := hmkc _ _ _ _ hmk
  subst hdeq
  exact ⟨mid, rfl, rfl, hlift _ hch, hlift _ hcr⟩

/-- C8 witness. -/
theorem build_materializes_null_path_disks_witness :
    disk_file_mode &&& 0o660 = 0o660 ∧
    List.Forall₂ (fun n n' =>
      List.Forall₂ (fun d d' =>
        (d.path = none → ∃ mid,
          d'.path = some ((buildEnvironment sampleWorld sampleEnv).env.work_dir ++
            "/disk" ++ mid ++ ("." ++ d.format)) ∧
          d'.format = d.format ∧
          Event.chmodE ((buildEnvironment sampleWorld sampleEnv).env.work_dir ++
            "/disk" ++ mid ++ ("." ++ d.format)) disk_file_mode ∈
              (buildEnvironment sampleWorld sampleEnv).trace ∧
          Event.createDiskE d' ∈ (buildEnvironment sampleWorld sampleEnv).trace) ∧
        (∀ q, d.path = some q → d' = d)) n.disks n'.disks)
      sampleEnv.nodes (buildEnvironment sampleWorld sampleEnv).env.nodes :=
  build_materializes_null_path_disks sampleWorld sampleEnv
    (fun pre suf k p hp => ⟨"T", by injection hp with h1; exact h1.symm⟩)
    (by decide)

/-- C3: a failure of `networks_pool.put` during `destroy_environment`
is swallowed: the outcome is independent of the `poolPut` oracle, so
with every other call succeeding teardown completes — no error, every
network's `delete_network` is performed, the environment's driver
reference is dropped, and `work_dir` is removed.  Conversely, any
error `destroy_environment` raises originates in a `stop`/`delete`
call or in `rmtree`, never in the address return. -/
theorem destroy_swallows_address_return_failures
    (w w' : World) (env : Environment)
    (hsn : w'.stopNode = w.stopNode) (hdn : w'.deleteNode = w.deleteNode)
    (hsw : w'.stopNetwork = w.stopNetwork) (hdw : w'.deleteNetwork = w.deleteNetwork)
    (hrm : w'.rmtree = w.rmtree)
    (hstop : ∀ n, w.stopNode n = .ok ()) (hdel : ∀ n, w.deleteNode n = .ok ())
    (hsnet : ∀ n, w.stopNetwork n = .ok ()) (hdnet : ∀ n, w.deleteNetwork n = .ok ())
    (hrmt : ∀ p, w.rmtree p = .ok ()) :
    destroyEnvironment w' env = destroyEnvironment w env ∧
    (destroyEnvironment w' env).err = none ∧
    (destroyEnvironment w' env).env.driver = false ∧
    countE isDeleteNetworkE (destroyEnvironment w' env).trace = env.networks.length ∧
    Event.rmtreeE env.work_dir ∈ (destroyEnvironment w' env).trace ∧
    (∀ (v : World) (e : Err), (destroyEnvironment v env).err = some e →
      (∃ n, v.stopNode n = .error e) ∨ (∃ n, v.deleteNode n = .error e) ∨
      (∃ net, v.stopNetwork net = .error e) ∨ (∃ net, v.deleteNetwork net = .error e) ∨
      v.rmtree env.work_dir = .error e) ∧
    (∀ (v : World) (e : Err), (∀ n, v.stopNode n = .ok ()) →
      (∀ n, v.deleteNode n = .error e) →
      ∀ n0 rest, env.nodes = n0 :: rest → (destroyEnvironment v env).err = some e) := by
  have hext := destroyEnvironment_ext w w' env hsn hdn hsw hdw hrm
  have hok := destroyEnvironment_ok w env hstop hdel hsnet hdnet hrmt
  refine ⟨hext, ?_, ?_, ?_, ?_, fun v e he => destroyEnvironment_err v env e he, ?_⟩
  · rw [hext, hok]
  · rw [hext, hok]; rfl
  · rw [hext, hok]
    simp only [countE_append, countE_deleteNetwork_nodesTrace,
      countE_deleteNetwork_networksTrace]
    simp [countE, isDeleteNetworkE]
  · rw [hext, hok]
    simp
  · intro v e hvs hvd n0 rest hns
    have hdn0 : destroyNodes v env.nodes = (n0 :: rest,
        [Event.stopNodeE n0, Event.deleteNodeE n0], some e) := by
      rw [hns]
      simp [destroyNodes, hvs n0, hvd n0]
    simp [destroyEnvironment, hdn0]

/-- C3 witness: destruction of a built environment under an oracle
whose every address return fails. -/
theorem destroy_swallows_address_return_failures_witness :
    destroyEnvironment samplePutFailWorld sampleBuiltEnv =
      destroyEnvironment sampleWorld sampleBuiltEnv ∧
    (destroyEnvironment samplePutFailWorld sampleBuiltEnv).err = none ∧
    (destroyEnvironment samplePutFailWorld sampleBuiltEnv).env.driver = false ∧
    countE isDeleteNetworkE (destroyEnvironment samplePutFailWorld sampleBuiltEnv).trace =
      sampleBuiltEnv.networks.length ∧
    Event.rmtreeE sampleBuiltEnv.work_dir ∈
      (destroyEnvironment samplePutFailWorld sampleBuiltEnv).trace ∧
    (∀ (v : World) (e : Err), (destroyEnvironment v sampleBuiltEnv).err = some e →
      (∃ n, v.stopNode n = .error e) ∨ (∃ n, v.deleteNode n = .error e) ∨
      (∃ net, v.stopNetwork net = .error e) ∨ (∃ net, v.deleteNetwork net = .error e) ∨
      v.rmtree sampleBuiltEnv.work_dir = .error e) ∧
    (∀ (v : World) (e : Err), (∀ n, v.stopNode n = .ok ()) →
      (∀ n, v.deleteNode n = .error e) →
      ∀ n0 rest, sampleBuiltEnv.nodes = n0 :: rest →
        (destroyEnvironment v sampleBuiltEnv).err = some e) :=
  destroy_swallows_address_return_failures sampleWorld samplePutFailWorld sampleBuiltEnv
    rfl rfl rfl rfl rfl (fun _ => rfl) (fun _ => rfl) (fun _ => rfl) (fun _ => rfl)
    (fun _ => rfl)

/-- C10: a fully successful `destroy_environment` only detaches the
transient driver references and removes `work_dir`: the resulting
environment is exactly the input with drivers stripped, so `built`
stays true and every network keeps its allocated `ip_addresses`
block. -/
theorem destroy_frame_effect (w : World) (env : Environment)
    (hstop : ∀ n, w.stopNode n = .ok ()) (hdel : ∀ n, w.deleteNode n = .ok ())
    (hsnet : ∀ n, w.stopNetwork n = .ok ()) (hdnet : ∀ n, w.deleteNetwork n = .ok ())
    (hrmt : ∀ p, w.rmtree p = .ok ()) (hb : env.built = true) :
    (destroyEnvironment w env).env = stripDrivers env ∧
    (destroyEnvironment w env).env.built = true ∧
    (destroyEnvironment w env).env.networks.map Network.ip_addresses =
      env.networks.map Network.ip_addresses ∧
    (destroyEnvironment w env).env.networks.map Network.name =
      env.networks.map Network.name ∧
    (destroyEnvironment w env).env.nodes.map Node.disks = env.nodes.map Node.disks ∧
    (destroyEnvironment w env).env.nodes.map Node.name = env.nodes.map Node.name ∧
    (destroyEnvironment w env).env.nodes.map Node.cdrom = env.nodes.map Node.cdrom ∧
    (destroyEnvironment w env).env.id = env.id ∧
    (destroyEnvironment w env).env.name = env.name ∧
    (destroyEnvironment w env).env.work_dir = env.work_dir ∧
    (destroyEnvironment w env).env.driver = false ∧
    (∀ n ∈ (destroyEnvironment w env).env.networks, n.driver = false) ∧
    (∀ n ∈ (destroyEnvironment w env).env.nodes, n.driver = false) ∧
    Event.rmtreeE env.work_dir ∈ (destroyEnvironment w env).trace := by
  have hok := destroyEnvironment_ok w env hstop hdel hsnet hdnet hrmt
  rw [hok]
  refine ⟨rfl, ?_, ?_, ?_, ?_, ?_, ?_, rfl, rfl, rfl, rfl, ?_, ?_, ?_⟩
  · simp [stripDrivers, hb]
  · simp [stripDrivers, stripNetworkDriver, List.map_map, Function.comp]
  · simp [stripDrivers, stripNetworkDriver, List.map_map, Function.comp]
  · simp [stripDrivers, stripNodeDriver, List.map_map, Function.comp]
  · simp [stripDrivers, stripNodeDriver, List.map_map, Function.comp]
  · simp [stripDrivers, stripNodeDriver, List.map_map, Function.comp]
  · intro n hn
    simp only [stripDrivers, List.mem_map] at hn
    obtain ⟨m, -, rfl⟩ := hn
    rfl
  · intro n hn
    simp only [stripDrivers, List.mem_map] at hn
    obtain ⟨m, -, rfl⟩ := hn
    rfl
  · simp

/-- C10 witness. -/
theorem destroy_frame_effect_witness :
    (destroyEnvironment sampleWorld sampleBuiltEnv).env = stripDrivers sampleBuiltEnv ∧
    (destroyEnvironment sampleWorld sampleBuiltEnv).env.built = true ∧
    (destroyEnvironment sampleWorld sampleBuiltEnv).env.networks.map Network.ip_addresses =
      sampleBuiltEnv.networks.map Network.ip_addresses ∧
    (destroyEnvironment sampleWorld sampleBuiltEnv).env.networks.map Network.name =
      sampleBuiltEnv.networks.map Network.name ∧
    (destroyEnvironment sampleWorld sampleBuiltEnv).env.nodes.map Node.disks =
      sampleBuiltEnv.nodes.map Node.disks ∧
    (destroyEnvironment sampleWorld sampleBuiltEnv).env.nodes.map Node.name =
      sampleBuiltEnv.nodes.map Node.name ∧
    (destroyEnvironment sampleWorld sampleBuiltEnv).env.nodes.map Node.cdrom =
      sampleBuiltEnv.nodes.map Node.cdrom ∧
    (destroyEnvironment sampleWorld sampleBuiltEnv).env.id = sampleBuiltEnv.id ∧
    (destroyEnvironment sampleWorld sampleBuiltEnv).env.name = sampleBuiltEnv.name ∧
    (destroyEnvironment sampleWorld sampleBuiltEnv).env.work_dir = sampleBuiltEnv.work_dir ∧
    (destroyEnvironment sampleWorld sampleBuiltEnv).env.driver = false ∧
    (∀ n ∈ (destroyEnvironment sampleWorld sampleBuiltEnv).env.networks, n.driver = false) ∧
    (∀ n ∈ (destroyEnvironment sampleWorld sampleBuiltEnv).env.nodes, n.driver = false) ∧
    Event.rmtreeE sampleBuiltEnv.work_dir ∈
      (destroyEnvironment sampleWorld sampleBuiltEnv).trace :=
  destroy_frame_effect sampleWorld sampleBuiltEnv (fun _ => rfl) (fun _ => rfl)
    (fun _ => rfl) (fun _ => rfl) (fun _ => rfl) rfl

end Devops
